import Mathlib

/-!
# descriptor-reader: a verification development

A shallow embedding of `descriptor-reader.cpp` (a Windows console program that
lists USB devices with their device descriptor and string descriptors).

* Wide strings (`std::wstring`, `WCHAR[]`) are lists of UTF-16 code units,
  narrow strings (`std::string`) are lists of byte values; both are `List Nat`.
* `size_t` arithmetic is arithmetic modulo `2 ^ sizeBits`, where `sizeBits` is a
  parameter (32 for an x86 build, 64 for an x64 build).
* `long` and `ULONG` are 32 bits wide, as they are on every Windows target.
* C++ exceptions are the `Exn` values, returned explicitly.
* The Win32 services (SetupAPI, `CreateFile`, `DeviceIoControl`, ...) are the
  fields of a `Platform` record; the thread's last-error value, the set of open
  handles and a log of the control-channel calls are the fields of `World`.
-/

namespace DescriptorReader

/-! ## Strings -/

/-- A `std::wstring` / `WCHAR` buffer: UTF-16 code units. -/
abbrev WString := List Nat

/-- A `std::string`: byte values. -/
abbrev NString := List Nat

/-- The code units of a string literal (used to write examples). -/
def wstr (s : String) : WString := s.toList.map Char.toNat

/-- The C++ exceptions the standard library raises in this program. -/
inductive Exn where
  | invalid_argument
  | out_of_range
  deriving DecidableEq

deriving instance DecidableEq for Except

/-- The value `std::wstring::npos`, i.e. `(size_t)-1`. -/
def npos (sizeBits : Nat) : Nat := 2 ^ sizeBits - 1

/-- The call `s.find_first_of(c)` for a single character `c`: the index of the
first occurrence, or `npos`. -/
def find_first_of (sizeBits : Nat) (s : WString) (c : Nat) : Nat :=
  if c ∈ s then s.indexOf c else npos sizeBits

/-- The call `s.substr(pos, count)`: raises `out_of_range` when `pos` is
past the end, otherwise the at most `count` characters from `pos` on. -/
def substr (s : WString) (pos count : Nat) : Except Exn WString :=
  if pos > s.length then .error .out_of_range else .ok ((s.drop pos).take count)

/-- The call `s.c_str()` followed by the construction of a string from the
resulting pointer: the characters before the first NUL. -/
def c_str (s : WString) : WString := s.takeWhile (fun c => c != 0)

/-- The `iswspace` test of the C locale. -/
def iswspace (c : Nat) : Bool := c == 32 || (9 ≤ c && c ≤ 13)

/-- An ASCII decimal digit. -/
def isdigit (c : Nat) : Bool := 48 ≤ c && c ≤ 57

/-- The largest `long` of the Windows ABI. -/
def LONG_MAX : Int := 2147483647

/-- The smallest `long` of the Windows ABI. -/
def LONG_MIN : Int := -2147483648

/-- The sign recognised by `wcstol` at the head of the text, with the rest. -/
def stol_sign : WString → Bool × WString
  | 45 :: rest => (true, rest)
  | 43 :: rest => (false, rest)
  | s => (false, s)

/-- The call `std::stol(s)` (base 10, no position out-parameter), after the C++
standard: `wcstol` skips leading white space, accepts one optional sign, then
reads the longest run of decimal digits and ignores whatever follows. With no
digit at that place it raises `invalid_argument`; with a value outside the range
of `long` it raises `out_of_range`. -/
def stol (s : WString) : Except Exn Int :=
  let body := stol_sign (s.dropWhile iswspace)
  let digits := body.2.takeWhile isdigit
  if digits = [] then .error .invalid_argument
  else
    let magnitude : Nat := digits.foldl (fun acc d => 10 * acc + (d - 48)) 0
    let value : Int := if body.1 then -(magnitude : Int) else (magnitude : Int)
    if value < LONG_MIN ∨ LONG_MAX < value then .error .out_of_range else .ok value

/-- Source: `GetPortFromLocation` (lines 107-114). The two indices are `size_t`
values, so `port_starting_index + 1` and
`(port_ending_index - port_starting_index) - 1` are computed modulo
`2 ^ sizeBits`. -/
def GetPortFromLocation (sizeBits : Nat) (location_information : WString) : Except Exn Int :=
  let port_starting_index := find_first_of sizeBits location_information 35
  let port_ending_index := find_first_of sizeBits location_information 46
  let pos := (port_starting_index + 1) % 2 ^ sizeBits
  let diff := (port_ending_index + 2 ^ sizeBits - port_starting_index) % 2 ^ sizeBits
  let count := (diff + 2 ^ sizeBits - 1) % 2 ^ sizeBits
  match substr location_information pos count with
  | .error e => .error e
  | .ok port => stol (c_str port)

/-! ## The platform -/

/-- The last-error code `ERROR_NO_MORE_ITEMS`. -/
def ERROR_NO_MORE_ITEMS : Nat := 259

/-- A device-interface class identifier (the 128 bits of the `GUID`). -/
abbrev GUID := Nat

/-- The interface class of USB hubs, `{f18a0e88-c30c-11d0-8815-00a0c906bed8}`. -/
def GUID_DEVINTERFACE_USB_HUB : GUID := 0xf18a0e88c30c11d0881500a0c906bed8

/-- The interface class of USB devices, `{a5dcbf10-6530-11d2-901f-00c04fb951ed}`. -/
def GUID_DEVINTERFACE_USB_DEVICE : GUID := 0xa5dcbf10653011d2901f00c04fb951ed

/-- What one platform call answers: `value` is `none` when the call reports
failure (`FALSE`, `INVALID_HANDLE_VALUE`); `setErr` is the code the call stores
in the thread's last-error value, `none` when it leaves that value alone. -/
structure Reply (α : Type) where
  value : Option α
  setErr : Option Nat

/-- The device descriptor of the USB specification (`USB_DEVICE_DESCRIPTOR`). -/
structure USB_DEVICE_DESCRIPTOR where
  bLength : Nat
  bDescriptorType : Nat
  bcdUSB : Nat
  bDeviceClass : Nat
  bDeviceSubClass : Nat
  bDeviceProtocol : Nat
  bMaxPacketSize0 : Nat
  idVendor : Nat
  idProduct : Nat
  bcdDevice : Nat
  iManufacturer : Nat
  iProduct : Nat
  iSerialNumber : Nat
  bNumConfigurations : Nat
  deriving DecidableEq

/-- The value-initialised descriptor `USB_DEVICE_DESCRIPTOR x = {}`. -/
def USB_DEVICE_DESCRIPTOR.zero : USB_DEVICE_DESCRIPTOR :=
  ⟨0, 0, 0, 0, 0, 0, 0, 0, 0, 0, 0, 0, 0, 0⟩

/-- The fields of `USB_DESCRIPTOR_REQUEST` that `GetStringDescriptor` fills in;
the others stay zero after the `memset`. -/
structure USB_DESCRIPTOR_REQUEST where
  ConnectionIndex : Nat
  wValue : Nat
  wIndex : Nat
  wLength : Nat
  deriving DecidableEq

/-- The descriptor type of a string descriptor (USB specification, `usbspec.h`). -/
def USB_STRING_DESCRIPTOR_TYPE : Nat := 3

/-- The largest length of a string descriptor in bytes (`usbioctl.h`). -/
def MAXIMUM_USB_STRING_LENGTH : Nat := 255

/-- One `DeviceIoControl` call, as it is logged. -/
inductive ControlRequest where
  | nodeConnectionInformationEx (handle : Nat) (ConnectionIndex : Nat)
  | descriptorFromNodeConnection (handle : Nat) (request : USB_DESCRIPTOR_REQUEST)
  deriving DecidableEq

/-- What the platform answers for the member of a device information set at one
index: the node of the member (`SP_DEVINFO_DATA.DevInst`) and the replies of the
calls the program makes about it. -/
structure Entry where
  /-- The device-tree node of the member. -/
  DevInst : Nat
  /-- The last-error effect of the successful `SetupDiEnumDeviceInfo`. -/
  infoErr : Option Nat
  /-- The reply of `SetupDiEnumDeviceInterfaces` at this index. -/
  iface : Reply Unit
  /-- The last-error effect of the sizing call of `SetupDiGetDeviceInterfaceDetail`. -/
  sizingErr : Option Nat
  /-- The reply of the second `SetupDiGetDeviceInterfaceDetail`: the `DevicePath`. -/
  detail : Reply WString
  /-- The reply of `SetupDiGetDeviceRegistryProperty` for `SPDRP_LOCATION_INFORMATION`. -/
  location : Reply WString
  /-- The parent node `CM_Get_Parent` yields, `none` when it does not return `CR_SUCCESS`. -/
  parent : Option Nat

/-- The state the program shares with the platform. -/
structure World where
  /-- The value `GetLastError()` returns. -/
  lastError : Nat
  /-- The handles `CreateFile` returned that are not closed yet. -/
  openHandles : List Nat
  /-- The paths passed to `CreateFile`, oldest first. -/
  opened : List WString
  /-- The `DeviceIoControl` calls made, oldest first. -/
  requests : List ControlRequest
  deriving DecidableEq

/-- The platform services the program consumes. A reply is a function of the
arguments of the call. `SetupDiEnumDeviceInfo` on a snapshot of `n` members
succeeds at the indices below `n` and fails with `ERROR_NO_MORE_ITEMS` from `n`
on. `CloseHandle` and `CM_Get_Parent` leave the last-error value alone. Heap
allocation (`malloc`, `new`) always succeeds. -/
structure Platform where
  /-- The width of `size_t` in bits. -/
  sizeBits : Nat
  /-- The call `SetupDiGetClassDevs(guid, NULL, NULL, DIGCF_PRESENT | DIGCF_DEVICEINTERFACE)`. -/
  SetupDiGetClassDevs : GUID → Reply (List Entry)
  /-- The call `CreateFile(path, ...)`: a handle, or `INVALID_HANDLE_VALUE`. -/
  CreateFile : WString → Reply Nat
  /-- The call `DeviceIoControl` with `IOCTL_USB_GET_NODE_CONNECTION_INFORMATION_EX`
  on a handle and a connection index: the `DeviceDescriptor` field of the answer. -/
  NodeConnectionInformationEx : Nat → Nat → Reply USB_DEVICE_DESCRIPTOR
  /-- The call `DeviceIoControl` with `IOCTL_USB_GET_DESCRIPTOR_FROM_NODE_CONNECTION`:
  the code units found in `bString` of the answer (the buffer was zeroed before). -/
  DescriptorFromNodeConnection : Nat → USB_DESCRIPTOR_REQUEST → Reply WString

/-- The last-error value after a call with the given effect. -/
def World.after (w : World) (setErr : Option Nat) : World :=
  { w with lastError := setErr.getD w.lastError }

/-- The `std::string(w.begin(), w.end())` conversion: each `wchar_t` is narrowed
to a `char`. -/
def narrow (s : WString) : NString := s.map (fun c => c % 256)

/-- A `long` converted to `ULONG`. -/
def toULONG (x : Int) : Nat := (x % 4294967296).toNat

/-- The call `CreateFile(hub_path.c_str(), ...)`: the world records the path, the
last-error effect and, on success, the new open handle. -/
def createFile (P : Platform) (hub_path : WString) (w : World) : Option Nat × World :=
  let r := P.CreateFile (c_str hub_path)
  let w1 := { w.after r.setErr with opened := w.opened ++ [c_str hub_path] }
  match r.value with
  | some h => (some h, { w1 with openHandles := h :: w1.openHandles })
  | none => (none, w1)

/-- The call `CloseHandle(h)`. -/
def closeHandle (h : Nat) (w : World) : World :=
  { w with openHandles := w.openHandles.erase h }

/-- Source: `GetStringDescriptor` (lines 124-174). The buffer holds the request
header and `MAXIMUM_USB_STRING_LENGTH` bytes, so `wLength` is that number; the
`wValue` is narrowed to the 16 bits of a `USHORT`; language 1033 is en-US. On
success the function returns from inside the `if` (line 169), before the
`CloseHandle` of line 171. -/
def GetStringDescriptor (P : Platform) (hub_path : WString) (port index : Nat)
    (w : World) : NString × World :=
  match createFile P hub_path w with
  | (some hub_handle, w1) =>
    let request : USB_DESCRIPTOR_REQUEST :=
      { ConnectionIndex := port
        wValue := ((USB_STRING_DESCRIPTOR_TYPE <<< 8) ||| index) % 65536
        wIndex := 1033
        wLength := MAXIMUM_USB_STRING_LENGTH % 65536 }
    let r := P.DescriptorFromNodeConnection hub_handle request
    let w2 := { w1.after r.setErr with
      requests := w1.requests ++ [.descriptorFromNodeConnection hub_handle request] }
    match r.value with
    | some bString => (narrow (c_str bString), w2)
    | none => ([], closeHandle hub_handle w2)
  | (none, w1) => ([], w1)

/-- Source: `GetDeviceDescriptor` (lines 183-221). The descriptor starts
value-initialised and is overwritten only when the request succeeds; the handle
is closed on both paths that opened it (line 218). -/
def GetDeviceDescriptor (P : Platform) (hub_path : WString) (port : Nat)
    (w : World) : USB_DEVICE_DESCRIPTOR × World :=
  let usb_device_descriptor := USB_DEVICE_DESCRIPTOR.zero
  match createFile P hub_path w with
  | (some hub_handle, w1) =>
    let r := P.NodeConnectionInformationEx hub_handle port
    let w2 := { w1.after r.setErr with
      requests := w1.requests ++ [.nodeConnectionInformationEx hub_handle port] }
    let usb_device_descriptor :=
      match r.value with
      | some d => d
      | none => usb_device_descriptor
    (usb_device_descriptor, closeHandle hub_handle w2)
  | (none, w1) => (usb_device_descriptor, w1)

/-- Source: the body of the `while` loop of `GetHubPath` (lines 69-95) at one
`member_index`, on the snapshot `hubs` of the hub interface class. -/
def GetHubPath.step (hubs : List Entry) (device_instance member_index : Nat)
    (hub_path : WString) (w : World) : WString × World :=
  match hubs.get? member_index with
  | none => (hub_path, w.after (some ERROR_NO_MORE_ITEMS))
  | some e =>
    let w1 := w.after e.infoErr
    if e.DevInst = device_instance then
      let w2 := w1.after e.iface.setErr
      match e.iface.value with
      | some _ =>
        let w3 := (w2.after e.sizingErr).after e.detail.setErr
        match e.detail.value with
        | some DevicePath => (c_str DevicePath, w3)
        | none => (hub_path, w3)
      | none => (hub_path, w2)
    else (hub_path, w1)

/-- Source: the `while (ERROR_NO_MORE_ITEMS != GetLastError())` loop of
`GetHubPath` (lines 67-96). The first argument bounds the number of loop tests;
`none` means the bound was reached. -/
def GetHubPath.loop (hubs : List Entry) (device_instance : Nat) :
    Nat → Nat → WString → World → Option (WString × World)
  | 0, _, _, _ => none
  | fuel + 1, member_index, hub_path, w =>
    if w.lastError = ERROR_NO_MORE_ITEMS then some (hub_path, w)
    else
      let r := GetHubPath.step hubs device_instance member_index hub_path w
      GetHubPath.loop hubs device_instance fuel (member_index + 1) r.1 r.2

/-- Source: `GetHubPath` (lines 55-99). -/
def GetHubPath (P : Platform) (device_instance : Nat) (w : World) : Option (WString × World) :=
  let r := P.SetupDiGetClassDevs GUID_DEVINTERFACE_USB_HUB
  let w1 := w.after r.setErr
  match r.value with
  | some hubs => GetHubPath.loop hubs device_instance (hubs.length + 2) 0 [] w1
  | none => some ([], w1)

/-- Source: `struct Device` (lines 20-47). -/
structure Device where
  device_path : NString
  usb_device_descriptor : USB_DEVICE_DESCRIPTOR
  manufacture : NString
  serial : NString
  product : NString
  deriving DecidableEq

/-- How a stateful part of the program ends: with a value, with a C++ exception
leaving the function, or `unfinished` when the iteration bound of a loop was
reached. -/
inductive Outcome (α : Type) where
  | ok (value : α) (w : World)
  | raised (e : Exn) (w : World)
  | unfinished
  deriving DecidableEq

/-- Source: lines 275-280 of `GetDevices`, the statements run once the interface
path, the location text and the parent node are at hand. The arguments of each
call are evaluated from right to left (as the Microsoft compiler does), so
`GetPortFromLocation` runs before `GetHubPath`; the array `location_information`
is converted to a `std::wstring` at each call. -/
def GetDevices.fetch (P : Platform) (device_path : NString) (parent_device_instance : Nat)
    (location_information : WString) (w : World) : Outcome Device :=
  match GetPortFromLocation P.sizeBits (c_str location_information) with
  | .error e => .raised e w
  | .ok port1 =>
  match GetHubPath P parent_device_instance w with
  | none => .unfinished
  | some (hub1, w1) =>
  let d := GetDeviceDescriptor P hub1 (toULONG port1) w1
  match GetPortFromLocation P.sizeBits (c_str location_information) with
  | .error e => .raised e d.2
  | .ok port2 =>
  match GetHubPath P parent_device_instance d.2 with
  | none => .unfinished
  | some (hub2, w2) =>
  let m := GetStringDescriptor P hub2 (toULONG port2) d.1.iManufacturer w2
  match GetPortFromLocation P.sizeBits (c_str location_information) with
  | .error e => .raised e m.2
  | .ok port3 =>
  match GetHubPath P parent_device_instance m.2 with
  | none => .unfinished
  | some (hub3, w3) =>
  let s := GetStringDescriptor P hub3 (toULONG port3) d.1.iSerialNumber w3
  match GetPortFromLocation P.sizeBits (c_str location_information) with
  | .error e => .raised e s.2
  | .ok port4 =>
  match GetHubPath P parent_device_instance s.2 with
  | none => .unfinished
  | some (hub4, w4) =>
  let p := GetStringDescriptor P hub4 (toULONG port4) d.1.iProduct w4
  .ok { device_path := device_path
        usb_device_descriptor := d.1
        manufacture := m.1
        serial := s.1
        product := p.1 } p.2

/-- Source: the body of the `while` loop of `GetDevices` (lines 243-302) at one
`member_index`: the record pushed onto `devices`, if one is. The local variable
`last_error` is written but never read, so it is left out. -/
def GetDevices.step (P : Platform) (snapshot : List Entry) (member_index : Nat)
    (w : World) : Outcome (Option Device) :=
  match snapshot.get? member_index with
  | none => .ok none (w.after (some ERROR_NO_MORE_ITEMS))
  | some e =>
    let w1 := (w.after e.infoErr).after e.iface.setErr
    match e.iface.value with
    | none => .ok none w1
    | some _ =>
      let w2 := (w1.after e.sizingErr).after e.detail.setErr
      match e.detail.value with
      | none => .ok none w2
      | some DevicePath =>
        let device_path := narrow (c_str DevicePath)
        let w3 := w2.after e.location.setErr
        match e.location.value with
        | none => .ok none w3
        | some location_information =>
          match e.parent with
          | none => .ok none w3
          | some parent_device_instance =>
            match GetDevices.fetch P device_path parent_device_instance location_information w3 with
            | .ok device w4 => .ok (some device) w4
            | .raised x w4 => .raised x w4
            | .unfinished => .unfinished

/-- Source: the `while (ERROR_NO_MORE_ITEMS != GetLastError())` loop of
`GetDevices` (lines 241-303). The first argument bounds the number of loop
tests. An exception leaves the loop and the function, and `devices` with it. -/
def GetDevices.loop (P : Platform) (snapshot : List Entry) :
    Nat → Nat → List Device → World → Outcome (List Device)
  | 0, _, _, _ => .unfinished
  | fuel + 1, member_index, devices, w =>
    if w.lastError = ERROR_NO_MORE_ITEMS then .ok devices w
    else
      match GetDevices.step P snapshot member_index w with
      | .ok (some device) w1 =>
        GetDevices.loop P snapshot fuel (member_index + 1) (devices ++ [device]) w1
      | .ok none w1 => GetDevices.loop P snapshot fuel (member_index + 1) devices w1
      | .raised x w1 => .raised x w1
      | .unfinished => .unfinished

/-- Source: `GetDevices` (lines 229-310). -/
def GetDevices (P : Platform) (guid : GUID) (w : World) : Outcome (List Device) :=
  let r := P.SetupDiGetClassDevs guid
  let w1 := w.after r.setErr
  match r.value with
  | some snapshot => GetDevices.loop P snapshot (snapshot.length + 2) 0 [] w1
  | none => .ok [] w1



/-! ## Definitions used to state the properties -/

/-- The text `GetPortFromLocation` hands to `stol`, by cases on the delimiters:
with a `#`, the text after the first `#`, cut at the first `.` when that `.`
comes after the `#`; without a `#`, the text before the first `.`. -/
def portText (s : WString) : WString :=
  if 35 ∈ s then
    let rest := (s.dropWhile (fun c => c != 35)).tail
    if 46 ∈ s ∧ s.indexOf 35 < s.indexOf 46 then rest.takeWhile (fun c => c != 46) else rest
  else s.takeWhile (fun c => c != 46)


/-- The base-10 value of a run of ASCII digits, most significant digit first. -/
def decimalValue (N : WString) : Nat := Nat.ofDigits 10 ((N.map (fun c => c - 48)).reverse)

/-- The text begins with a base-10 integer in the sense of `wcstol`: white
space, then at most one sign, then a decimal digit. -/
def StartsWithInteger (t : WString) : Prop :=
  ∃ ws sg d rest, t = ws ++ sg ++ d :: rest ∧ (∀ c ∈ ws, iswspace c = true) ∧
    (sg = [] ∨ sg = [43] ∨ sg = [45]) ∧ isdigit d = true


/-- Two worlds agree on the control channels: the same open handles and the
same logs of `CreateFile` and `DeviceIoControl` calls. -/
def World.sameChannels (a b : World) : Prop :=
  a.openHandles = b.openHandles ∧ a.opened = b.opened ∧ a.requests = b.requests

/-- The record `d` stems from the member `i` of the snapshot: the interface of
that member was enumerated, its interface path, its location text and its parent
node were obtained, and `d` carries that interface path. -/
def StemsFrom (snapshot : List Entry) (d : Device) (i : Nat) : Prop :=
  ∃ e DevicePath, snapshot.get? i = some e ∧ e.iface.value.isSome = true ∧
    e.detail.value = some DevicePath ∧ e.location.value.isSome = true ∧
    e.parent.isSome = true ∧ d.device_path = narrow (c_str DevicePath)

/-! ## A concrete platform

One hub (node 1, control path `hub`) and a list of USB devices. The hub can be
opened; the device on port 4 answers the descriptor request, the string
requests for the indices 1 and 2 and, with its table of language identifiers,
the string request for index 0; the string request for index 3 fails. -/

/-- The hub of the example platform. -/
def exampleHub : Entry :=
  { DevInst := 1, infoErr := none, iface := ⟨some (), none⟩, sizingErr := some 122,
    detail := ⟨some (wstr "hub"), none⟩, location := ⟨none, some 13⟩, parent := none }

/-- A USB device of the example platform whose interface path, location text and
parent node can all be obtained. -/
def exampleDevice (path location : String) (parent : Nat) : Entry :=
  { DevInst := 5, infoErr := none, iface := ⟨some (), none⟩, sizingErr := some 122,
    detail := ⟨some (wstr path), none⟩, location := ⟨some (wstr location), none⟩,
    parent := some parent }

/-- The descriptor the device on port 4 of the example hub reports. -/
def exampleDescriptor : USB_DEVICE_DESCRIPTOR :=
  { bLength := 18, bDescriptorType := 1, bcdUSB := 512, bDeviceClass := 0, bDeviceSubClass := 0,
    bDeviceProtocol := 0, bMaxPacketSize0 := 64, idVendor := 1027, idProduct := 24577,
    bcdDevice := 0, iManufacturer := 1, iProduct := 2, iSerialNumber := 3,
    bNumConfigurations := 1 }

/-- The example platform. `openErr` is the last-error effect of a successful
`CreateFile`: `none` when it leaves the value alone, `some 0` when it resets it.
Every other successful call leaves the last-error value alone, except the sizing
call of `SetupDiGetDeviceInterfaceDetail`, which stores
`ERROR_INSUFFICIENT_BUFFER`. -/
def examplePlatform (openErr : Option Nat) (devices : List Entry) : Platform :=
  { sizeBits := 64
    SetupDiGetClassDevs := fun g =>
      if g = GUID_DEVINTERFACE_USB_HUB then ⟨some [exampleHub], none⟩
      else if g = GUID_DEVINTERFACE_USB_DEVICE then ⟨some devices, none⟩
      else ⟨none, some 13⟩
    CreateFile := fun p => if p = wstr "hub" then ⟨some 7, openErr⟩ else ⟨none, some 3⟩
    NodeConnectionInformationEx := fun _ port =>
      if port = 4 then ⟨some exampleDescriptor, none⟩ else ⟨none, some 31⟩
    DescriptorFromNodeConnection := fun _ r =>
      if r.ConnectionIndex = 4 ∧ r.wValue = 768 then ⟨some [1033], none⟩
      else if r.ConnectionIndex = 4 ∧ r.wValue = 769 then ⟨some (wstr "Acme"), none⟩
      else if r.ConnectionIndex = 4 ∧ r.wValue = 770 then ⟨some (wstr "Widget"), none⟩
      else ⟨none, some 31⟩ }

/-- A world with the given last-error value, no open handle and empty logs. -/
def freshWorld (lastError : Nat) : World := ⟨lastError, [], [], []⟩

/-- The value an outcome carries, if it carries one. -/
def Outcome.value? {α : Type} : Outcome α → Option α
  | .ok a _ => some a
  | _ => none

/-- The record of a device on port 4 of the example hub, when every string
request reaches the hub. -/
def exampleRecord (path : String) : Device :=
  { device_path := wstr path, usb_device_descriptor := exampleDescriptor,
    manufacture := wstr "Acme", serial := [], product := wstr "Widget" }

/-- The four control requests `GetDevices` sends for a device on port 4 of the
example hub. -/
def exampleRequests : List ControlRequest :=
  [.nodeConnectionInformationEx 7 4,
   .descriptorFromNodeConnection 7 ⟨4, 769, 1033, 255⟩,
   .descriptorFromNodeConnection 7 ⟨4, 771, 1033, 255⟩,
   .descriptorFromNodeConnection 7 ⟨4, 770, 1033, 255⟩]

/-! ## Lemmas on lists -/

theorem indexOf_eq_length_takeWhile (c : Nat) (s : List Nat) :
    s.indexOf c = (s.takeWhile (fun x => x != c)).length := by
  induction s with
  | nil => rfl
  | cons a t ih =>
    by_cases h : a = c
    · subst h; simp [List.indexOf_cons]
    · have h2 : (a != c) = true := by simpa using h
      simp [List.indexOf_cons, List.takeWhile_cons, h, h2, ih]

theorem take_indexOf (c : Nat) (s : List Nat) :
    s.take (s.indexOf c) = s.takeWhile (fun x => x != c) := by
  induction s with
  | nil => rfl
  | cons a t ih =>
    by_cases h : a = c
    · subst h; simp [List.indexOf_cons]
    · have h2 : (a != c) = true := by simpa using h
      simp [List.indexOf_cons, List.takeWhile_cons, h, h2, ih]

theorem drop_indexOf (c : Nat) (s : List Nat) :
    s.drop (s.indexOf c) = s.dropWhile (fun x => x != c) := by
  induction s with
  | nil => rfl
  | cons a t ih =>
    by_cases h : a = c
    · subst h; simp [List.indexOf_cons]
    · have h2 : (a != c) = true := by simpa using h
      simp [List.indexOf_cons, List.dropWhile_cons, h, h2, ih]

theorem indexOf_drop (c : Nat) (s : List Nat) (n : Nat) (h : n ≤ s.indexOf c) :
    (s.drop n).indexOf c = s.indexOf c - n := by
  induction s generalizing n with
  | nil => simp
  | cons a t ih =>
    cases n with
    | zero => simp
    | succ m =>
      by_cases hac : a = c
      · subst hac; simp [List.indexOf_cons] at h
      · simp [List.indexOf_cons, hac] at h ⊢
        rw [ih m h]

theorem mod_wrap (M x : Nat) (h : x < M) : (M + x) % M = x := by
  rw [Nat.add_mod_left, Nat.mod_eq_of_lt h]

theorem substr_portText (w : Nat) (s : WString) (hlen : s.length < 2 ^ w) :
    substr s ((find_first_of w s 35 + 1) % 2 ^ w)
      (((find_first_of w s 46 + 2 ^ w - find_first_of w s 35) % 2 ^ w + 2 ^ w - 1) % 2 ^ w)
      = .ok (portText s) := by
  generalize hM : 2 ^ w = M at hlen ⊢
  have hi : s.indexOf 35 ≤ s.length := List.indexOf_le_length
  have he : s.indexOf 46 ≤ s.length := List.indexOf_le_length
  unfold find_first_of npos portText substr
  rw [hM]
  by_cases h35 : 35 ∈ s
  · have hi' : s.indexOf 35 < s.length := List.indexOf_lt_length.2 h35
    have hpos : (s.indexOf 35 + 1) % M = s.indexOf 35 + 1 := Nat.mod_eq_of_lt (by omega)
    have hrest : (s.dropWhile (fun c => c != 35)).tail = s.drop (s.indexOf 35 + 1) := by
      rw [← drop_indexOf, List.tail_drop]
    simp only [h35, if_true, hpos, hrest]
    rw [if_neg (by omega)]
    by_cases h46 : 46 ∈ s
    · have he' : s.indexOf 46 < s.length := List.indexOf_lt_length.2 h46
      simp only [h46, if_true, true_and]
      by_cases hlt : s.indexOf 35 < s.indexOf 46
      · have h1 : s.indexOf 46 + M - s.indexOf 35 = M + (s.indexOf 46 - s.indexOf 35) := by omega
        have h2 : (s.indexOf 46 - s.indexOf 35) + M - 1
            = M + (s.indexOf 46 - s.indexOf 35 - 1) := by omega
        rw [h1, mod_wrap M _ (by omega), h2, mod_wrap M _ (by omega), if_pos hlt]
        rw [← take_indexOf 46 (s.drop (s.indexOf 35 + 1)),
          indexOf_drop 46 s (s.indexOf 35 + 1) (by omega)]
        congr 2
      · have hne : s.indexOf 35 ≠ s.indexOf 46 := by
          intro heq
          have a := List.indexOf_get hi'
          have b := List.indexOf_get he'
          simp only [heq] at a
          rw [a] at b
          exact absurd b (by decide)
        have h1 : s.indexOf 46 + M - s.indexOf 35
            = M - (s.indexOf 35 - s.indexOf 46) := by omega
        have h2 : M - (s.indexOf 35 - s.indexOf 46) + M - 1
            = M + (M - (s.indexOf 35 - s.indexOf 46) - 1) := by omega
        have h3 : (M - (s.indexOf 35 - s.indexOf 46)) % M
            = M - (s.indexOf 35 - s.indexOf 46) := Nat.mod_eq_of_lt (by omega)
        rw [h1, h3, h2, mod_wrap M _ (by omega), if_neg hlt]
        rw [List.take_of_length_le]
        rw [List.length_drop]; omega
    · simp only [h46, if_false, false_and]
      have h1 : M - 1 + M - s.indexOf 35 = M + (M - 1 - s.indexOf 35) := by omega
      have h2 : M - 1 - s.indexOf 35 + M - 1 = M + (M - 1 - s.indexOf 35 - 1) := by omega
      rw [h1, mod_wrap M _ (by omega), h2, mod_wrap M _ (by omega)]
      rw [List.take_of_length_le]
      rw [List.length_drop]; omega
  · simp only [h35, if_false]
    have hpos : (M - 1 + 1) % M = 0 := by
      have : M - 1 + 1 = M := by omega
      rw [this, Nat.mod_self]
    rw [hpos, if_neg (by omega), List.drop_zero]
    by_cases h46 : 46 ∈ s
    · have he' : s.indexOf 46 < s.length := List.indexOf_lt_length.2 h46
      simp only [h46, if_true]
      have h1 : s.indexOf 46 + M - (M - 1) = s.indexOf 46 + 1 := by omega
      have h2 : s.indexOf 46 + 1 + M - 1 = M + s.indexOf 46 := by omega
      have h3 : (s.indexOf 46 + 1) % M = s.indexOf 46 + 1 := Nat.mod_eq_of_lt (by omega)
      rw [h1, h3, h2, mod_wrap M _ (by omega), take_indexOf]
    · simp only [h46, if_false]
      have h1 : M - 1 + M - (M - 1) = M := by omega
      have h2 : 0 + M - 1 = M - 1 := by omega
      have h3 : (M - 1) % M = M - 1 := Nat.mod_eq_of_lt (by omega)
      rw [h1, Nat.mod_self, h2, h3, List.take_of_length_le (by omega)]
      have : s.indexOf 46 = s.length := List.indexOf_eq_length.2 h46
      rw [← take_indexOf, this, List.take_length]

theorem GetPortFromLocation_eq (w : Nat) (s : WString) (hlen : s.length < 2 ^ w) :
    GetPortFromLocation w s = stol (c_str (portText s)) := by
  unfold GetPortFromLocation
  simp only [substr_portText w s hlen]

theorem takeWhile_append_stop (p : Nat → Bool) (l r : List Nat) (a : Nat)
    (hl : ∀ x ∈ l, p x = true) (ha : p a = false) :
    (l ++ a :: r).takeWhile p = l := by
  induction l with
  | nil => simp [List.takeWhile_cons, ha]
  | cons b t ih =>
    have hb : p b = true := hl b (List.mem_cons_self _ _)
    simp only [List.cons_append, List.takeWhile_cons, hb, if_true]
    rw [ih (fun x hx => hl x (List.mem_cons_of_mem _ hx))]

theorem dropWhile_append_stop (p : Nat → Bool) (l r : List Nat) (a : Nat)
    (hl : ∀ x ∈ l, p x = true) (ha : p a = false) :
    (l ++ a :: r).dropWhile p = a :: r := by
  induction l with
  | nil => simp [List.dropWhile_cons, ha]
  | cons b t ih =>
    have hb : p b = true := hl b (List.mem_cons_self _ _)
    simp only [List.cons_append, List.dropWhile_cons, hb, if_true]
    rw [ih (fun x hx => hl x (List.mem_cons_of_mem _ hx))]

theorem takeWhile_all (p : Nat → Bool) (l : List Nat) (hl : ∀ x ∈ l, p x = true) :
    l.takeWhile p = l := by
  induction l with
  | nil => rfl
  | cons b t ih =>
    have hb : p b = true := hl b (List.mem_cons_self _ _)
    simp only [List.takeWhile_cons, hb, if_true]
    rw [ih (fun x hx => hl x (List.mem_cons_of_mem _ hx))]

theorem ne_of_not_mem (c : Nat) (l : List Nat) (h : c ∉ l) :
    ∀ x ∈ l, (x != c) = true := by
  intro x hx
  have : x ≠ c := fun e => h (e ▸ hx)
  simpa using this

theorem indexOf_append_stop (c : Nat) (l r : List Nat) (h : c ∉ l) :
    (l ++ c :: r).indexOf c = l.length := by
  rw [indexOf_eq_length_takeWhile, takeWhile_append_stop _ l r c (ne_of_not_mem c l h) (by simp)]

/-- On a text of the shape `pre # mid . suf`, where the `#` and the `.` shown
are the first ones, the text handed to `stol` is `mid`. -/
theorem portText_shape (pre mid suf : WString) (h1 : 35 ∉ pre) (h2 : 46 ∉ pre)
    (h3 : 46 ∉ mid) : portText (pre ++ 35 :: (mid ++ 46 :: suf)) = mid := by
  have hi : (pre ++ 35 :: (mid ++ 46 :: suf)).indexOf 35 = pre.length :=
    indexOf_append_stop 35 pre _ h1
  have he : (pre ++ 35 :: (mid ++ 46 :: suf)).indexOf 46 = pre.length + 1 + mid.length := by
    have e : pre ++ 35 :: (mid ++ 46 :: suf) = (pre ++ 35 :: mid) ++ 46 :: suf := by simp
    rw [e, indexOf_append_stop 46 (pre ++ 35 :: mid) suf (by simp [h2, h3])]
    simp only [List.length_append, List.length_cons]
    omega
  have hd : (pre ++ 35 :: (mid ++ 46 :: suf)).dropWhile (fun c => c != 35)
      = 35 :: (mid ++ 46 :: suf) :=
    dropWhile_append_stop _ pre _ 35 (ne_of_not_mem 35 pre h1) (by simp)
  unfold portText
  rw [if_pos (by simp)]
  simp only [hd, List.tail_cons, hi, he]
  rw [if_pos ⟨by simp, by omega⟩]
  exact takeWhile_append_stop _ mid suf 46 (ne_of_not_mem 46 mid h3) (by simp)

/-! ## Lemmas on `stol` -/

theorem stol_sign_c_str (t : WString) :
    stol_sign (c_str t) = ((stol_sign t).1, c_str (stol_sign t).2) := by
  unfold c_str
  match t with
  | [] => rfl
  | a :: r =>
    by_cases h45 : a = 45
    · subst h45; simp [stol_sign, List.takeWhile_cons]
    · by_cases h43 : a = 43
      · subst h43; simp [stol_sign, List.takeWhile_cons]
      · by_cases h0 : a = 0
        · subst h0; simp [stol_sign, List.takeWhile_cons]
        · have hs : ∀ l : WString, stol_sign (a :: l) = (false, a :: l) := by
            intro l
            unfold stol_sign
            split
            · rename_i heq; exact absurd (List.cons.inj heq).1 h45
            · rename_i heq; exact absurd (List.cons.inj heq).1 h43
            · rfl
          have hn : (a != 0) = true := by simpa using h0
          simp only [List.takeWhile_cons, hn, if_true, hs]

theorem dropWhile_iswspace_c_str (t : WString) :
    (c_str t).dropWhile iswspace = c_str (t.dropWhile iswspace) := by
  unfold c_str
  induction t with
  | nil => rfl
  | cons a r ih =>
    by_cases h0 : a = 0
    · subst h0; simp [List.takeWhile_cons, List.dropWhile_cons, iswspace]
    · have hn : (a != 0) = true := by simpa using h0
      by_cases hw : iswspace a = true
      · simp only [List.takeWhile_cons, hn, if_true, List.dropWhile_cons, hw, ih]
      · simp only [List.takeWhile_cons, hn, if_true, List.dropWhile_cons, hw]
        simp [List.takeWhile_cons, hn]

theorem takeWhile_isdigit_c_str (t : WString) :
    (c_str t).takeWhile isdigit = t.takeWhile isdigit := by
  unfold c_str
  induction t with
  | nil => rfl
  | cons a r ih =>
    by_cases h0 : a = 0
    · subst h0; simp [List.takeWhile_cons, isdigit]
    · have hn : (a != 0) = true := by simpa using h0
      by_cases hw : isdigit a = true
      · simp only [List.takeWhile_cons, hn, if_true, hw, ih]
      · simp only [List.takeWhile_cons, hn, if_true, hw]
        simp

/-- Cutting the text at its first NUL does not change what `stol` makes of it. -/
theorem stol_c_str (t : WString) : stol (c_str t) = stol t := by
  unfold stol
  simp only [dropWhile_iswspace_c_str, stol_sign_c_str, takeWhile_isdigit_c_str]

theorem foldl_digits (N : WString) (a : Nat) :
    N.foldl (fun acc d => 10 * acc + (d - 48)) a
      = a * 10 ^ N.length + decimalValue N := by
  unfold decimalValue
  induction N generalizing a with
  | nil => simp
  | cons d r ih =>
    rw [List.foldl_cons, ih, List.map_cons, List.reverse_cons, Nat.ofDigits_append,
      Nat.ofDigits_singleton]
    simp only [List.length_reverse, List.length_map, List.length_cons]
    ring

theorem stol_sign_digit (d : Nat) (r : WString) (hd : isdigit d = true) :
    stol_sign (d :: r) = (false, d :: r) := by
  unfold stol_sign
  split
  · rename_i heq
    have := (List.cons.inj heq).1
    subst this
    exact absurd hd (by decide)
  · rename_i heq
    have := (List.cons.inj heq).1
    subst this
    exact absurd hd (by decide)
  · rfl

theorem iswspace_digit (d : Nat) (hd : isdigit d = true) : iswspace d = false := by
  unfold isdigit at hd
  unfold iswspace
  simp only [Bool.and_eq_true, decide_eq_true_eq] at hd
  have h1 : (d == 32) = false := by
    have : d ≠ 32 := by omega
    simpa using this
  have h2 : decide (d ≤ 13) = false := by
    have : ¬ d ≤ 13 := by omega
    simpa using this
  simp [h1, h2]

/-- On a non-empty run of decimal digits `stol` yields its base-10 value when
that fits a `long`, and raises `out_of_range` otherwise. -/
theorem stol_digits (N : WString) (hN : N ≠ []) (hd : ∀ c ∈ N, isdigit c = true) :
    stol N = if (decimalValue N : Int) ≤ LONG_MAX then .ok (decimalValue N)
      else .error .out_of_range := by
  obtain ⟨d, r, rfl⟩ := List.exists_cons_of_ne_nil hN
  have hd0 : isdigit d = true := hd d (List.mem_cons_self _ _)
  have hw : (d :: r).dropWhile iswspace = d :: r := by
    simp [List.dropWhile_cons, iswspace_digit d hd0]
  unfold stol
  simp only [hw, stol_sign_digit d r hd0, takeWhile_all isdigit (d :: r) hd]
  rw [if_neg (by simp), foldl_digits]
  simp only [Nat.zero_mul, Nat.zero_add, Bool.false_eq_true, if_false]
  have hnn : (0 : Int) ≤ (decimalValue (d :: r) : Int) := Int.ofNat_nonneg _
  by_cases hfit : (decimalValue (d :: r) : Int) ≤ LONG_MAX
  · rw [if_pos hfit, if_neg]
    unfold LONG_MIN
    unfold LONG_MAX at hfit ⊢
    omega
  · rw [if_neg hfit, if_pos]
    right
    omega

theorem takeWhile_ne_nil_iff (p : Nat → Bool) (l : List Nat) :
    l.takeWhile p ≠ [] ↔ ∃ d rest, l = d :: rest ∧ p d = true := by
  cases l with
  | nil => simp
  | cons a r =>
    by_cases h : p a = true
    · simp [List.takeWhile_cons, h]
    · simp [List.takeWhile_cons, h]

theorem stol_digits_ne_nil_iff (t : WString) :
    (stol_sign (t.dropWhile iswspace)).2.takeWhile isdigit ≠ [] ↔ StartsWithInteger t := by
  constructor
  · intro h
    have hsplit : t = t.takeWhile iswspace ++ t.dropWhile iswspace :=
      (List.takeWhile_append_dropWhile iswspace t).symm
    have hws : ∀ c ∈ t.takeWhile iswspace, iswspace c = true :=
      fun c hc => List.mem_takeWhile_imp hc
    generalize t.dropWhile iswspace = u at h hsplit
    generalize t.takeWhile iswspace = ws at hsplit hws
    unfold stol_sign at h
    split at h
    · rename_i r
      obtain ⟨d, rest, hr, hd⟩ := (takeWhile_ne_nil_iff isdigit r).1 h
      exact ⟨ws, [45], d, rest, by rw [hsplit, hr]; simp, hws, Or.inr (Or.inr rfl), hd⟩
    · rename_i r
      obtain ⟨d, rest, hr, hd⟩ := (takeWhile_ne_nil_iff isdigit r).1 h
      exact ⟨ws, [43], d, rest, by rw [hsplit, hr]; simp, hws, Or.inr (Or.inl rfl), hd⟩
    · obtain ⟨d, rest, hr, hd⟩ := (takeWhile_ne_nil_iff isdigit u).1 h
      exact ⟨ws, [], d, rest, by rw [hsplit, hr]; simp, hws, Or.inl rfl, hd⟩
  · rintro ⟨ws, sg, d, rest, rfl, hws, hsg, hd⟩
    rcases hsg with rfl | rfl | rfl
    · have : (ws ++ [] ++ d :: rest).dropWhile iswspace = d :: rest := by
        rw [List.append_nil]
        exact dropWhile_append_stop iswspace ws rest d hws (iswspace_digit d hd)
      rw [this, stol_sign_digit d rest hd]
      simp [List.takeWhile_cons, hd]
    · have : (ws ++ [43] ++ d :: rest).dropWhile iswspace = 43 :: d :: rest := by
        rw [List.append_assoc]
        exact dropWhile_append_stop iswspace ws (d :: rest) 43 hws (by decide)
      rw [this]
      simp [stol_sign, List.takeWhile_cons, hd]
    · have : (ws ++ [45] ++ d :: rest).dropWhile iswspace = 45 :: d :: rest := by
        rw [List.append_assoc]
        exact dropWhile_append_stop iswspace ws (d :: rest) 45 hws (by decide)
      rw [this]
      simp [stol_sign, List.takeWhile_cons, hd]

theorem stol_invalid_iff (t : WString) :
    stol t = .error .invalid_argument ↔ ¬ StartsWithInteger t := by
  rw [← stol_digits_ne_nil_iff]
  unfold stol
  simp only []
  constructor
  · intro h
    by_contra hne
    rw [if_neg hne] at h
    split at h <;> split at h <;> simp at h
  · intro h
    rw [if_pos (not_not.1 h)]


/-! ## Lemmas on `GetHubPath` -/

theorem World.sameChannels_refl (w : World) : w.sameChannels w := ⟨rfl, rfl, rfl⟩

theorem World.sameChannels_trans {a b c : World} (h1 : a.sameChannels b)
    (h2 : b.sameChannels c) : a.sameChannels c :=
  ⟨h1.1.trans h2.1, h1.2.1.trans h2.2.1, h1.2.2.trans h2.2.2⟩

theorem World.sameChannels_after (w : World) (e : Option Nat) : (w.after e).sameChannels w :=
  ⟨rfl, rfl, rfl⟩

theorem GetHubPath.step_sameChannels (hubs : List Entry) (inst idx : Nat) (path : WString)
    (w : World) : (GetHubPath.step hubs inst idx path w).2.sameChannels w := by
  unfold GetHubPath.step
  split
  · exact World.sameChannels_after _ _
  · split
    · split
      · split <;> exact ⟨rfl, rfl, rfl⟩
      · exact ⟨rfl, rfl, rfl⟩
    · exact ⟨rfl, rfl, rfl⟩

theorem GetHubPath.step_past_end (hubs : List Entry) (inst idx : Nat) (path : WString)
    (w : World) (h : hubs.length ≤ idx) :
    (GetHubPath.step hubs inst idx path w).2.lastError = ERROR_NO_MORE_ITEMS := by
  unfold GetHubPath.step
  rw [List.get?_eq_none.2 h]
  rfl

theorem GetHubPath.step_no_match (hubs : List Entry) (inst idx : Nat) (path : WString)
    (w : World) (h : ∀ e ∈ hubs, e.DevInst ≠ inst) :
    (GetHubPath.step hubs inst idx path w).1 = path := by
  unfold GetHubPath.step
  split
  · rfl
  · rename_i e he
    have hmem : e ∈ hubs := List.get?_mem he
    rw [if_neg (h e hmem)]

/-- The loop of `GetHubPath` ends within `hubs.length + 2` loop tests, and it
touches no control channel. -/
theorem GetHubPath.loop_total (hubs : List Entry) (inst : Nat) :
    ∀ (fuel idx : Nat) (path : WString) (w : World),
      hubs.length + 2 ≤ fuel + idx → idx ≤ hubs.length →
      ∃ r, GetHubPath.loop hubs inst fuel idx path w = some r ∧ r.2.sameChannels w := by
  intro fuel
  induction fuel with
  | zero => intro idx path w h1 h2; omega
  | succ n ih =>
    intro idx path w h1 h2
    unfold GetHubPath.loop
    by_cases hle : w.lastError = ERROR_NO_MORE_ITEMS
    · rw [if_pos hle]
      exact ⟨_, rfl, World.sameChannels_refl w⟩
    · rw [if_neg hle]
      have hs := GetHubPath.step_sameChannels hubs inst idx path w
      by_cases hlt : idx < hubs.length
      · obtain ⟨r, hr, hc⟩ := ih (idx + 1) (GetHubPath.step hubs inst idx path w).1
          (GetHubPath.step hubs inst idx path w).2 (by omega) (by omega)
        exact ⟨r, hr, World.sameChannels_trans hc hs⟩
      · have hend := GetHubPath.step_past_end hubs inst idx path w (by omega)
        obtain ⟨m, rfl⟩ : ∃ m, n = m + 1 := ⟨n - 1, by omega⟩
        simp only []
        unfold GetHubPath.loop
        rw [if_pos hend]
        exact ⟨_, rfl, hs⟩

theorem GetHubPath.loop_no_match (hubs : List Entry) (inst : Nat)
    (h : ∀ e ∈ hubs, e.DevInst ≠ inst) :
    ∀ (fuel idx : Nat) (path : WString) (w : World) (r : WString × World),
      GetHubPath.loop hubs inst fuel idx path w = some r → r.1 = path := by
  intro fuel
  induction fuel with
  | zero => intro idx path w r hr; simp [GetHubPath.loop] at hr
  | succ n ih =>
    intro idx path w r hr
    unfold GetHubPath.loop at hr
    by_cases hle : w.lastError = ERROR_NO_MORE_ITEMS
    · rw [if_pos hle] at hr
      cases hr
      rfl
    · rw [if_neg hle] at hr
      have := ih _ _ _ _ hr
      rw [this, GetHubPath.step_no_match hubs inst idx path w h]

/-- `GetHubPath` returns, and it touches no control channel. -/
theorem GetHubPath_total (P : Platform) (inst : Nat) (w : World) :
    ∃ path w1, GetHubPath P inst w = some (path, w1) ∧ w1.sameChannels w := by
  simp only [GetHubPath]
  cases h : (P.SetupDiGetClassDevs GUID_DEVINTERFACE_USB_HUB).value with
  | none => exact ⟨[], _, rfl, World.sameChannels_after _ _⟩
  | some hubs =>
    obtain ⟨r, hr, hc⟩ := GetHubPath.loop_total hubs inst (hubs.length + 2) 0 []
      (w.after (P.SetupDiGetClassDevs GUID_DEVINTERFACE_USB_HUB).setErr) (by omega) (by omega)
    exact ⟨r.1, r.2, hr, World.sameChannels_trans hc (World.sameChannels_after _ _)⟩

/-- With no hub on the node `inst`, `GetHubPath` returns the empty path. -/
theorem GetHubPath_no_match (P : Platform) (inst : Nat) (w : World)
    (h : ∀ hubs, (P.SetupDiGetClassDevs GUID_DEVINTERFACE_USB_HUB).value = some hubs →
      ∀ e ∈ hubs, e.DevInst ≠ inst) :
    ∃ w1, GetHubPath P inst w = some ([], w1) ∧ w1.sameChannels w := by
  obtain ⟨path, w1, h1, h2⟩ := GetHubPath_total P inst w
  refine ⟨w1, ?_, h2⟩
  rw [h1]
  simp only [GetHubPath] at h1
  cases hv : (P.SetupDiGetClassDevs GUID_DEVINTERFACE_USB_HUB).value with
  | none =>
    rw [hv] at h1
    simp only [Option.some.injEq, Prod.mk.injEq] at h1
    rw [h1.1]
  | some hubs =>
    rw [hv] at h1
    have := GetHubPath.loop_no_match hubs inst (h hubs hv) _ _ _ _ _ h1
    simp only at this
    rw [this]

/-! ## Lemmas on `GetDevices` -/

theorem GetDeviceDescriptor_opened (P : Platform) (hub_path : WString) (port : Nat) (w : World) :
    (GetDeviceDescriptor P hub_path port w).2.opened = w.opened ++ [c_str hub_path] := by
  unfold GetDeviceDescriptor createFile closeHandle World.after
  cases h : (P.CreateFile (c_str hub_path)).value <;> simp [h]

theorem GetStringDescriptor_opened (P : Platform) (hub_path : WString) (port index : Nat)
    (w : World) :
    (GetStringDescriptor P hub_path port index w).2.opened = w.opened ++ [c_str hub_path] := by
  unfold GetStringDescriptor createFile closeHandle World.after
  cases h : (P.CreateFile (c_str hub_path)).value with
  | none => simp [h]
  | some hh =>
    simp only [h]
    split <;> simp

/-- The four hub paths and the worlds between the four fetcher calls of lines
275-278, for a location text that parses. -/
theorem GetDevices.fetch_ok (P : Platform) (device_path : NString) (parent : Nat)
    (location : WString) (w : World) (port : Int)
    (hp : GetPortFromLocation P.sizeBits (c_str location) = .ok port) :
    ∃ hub1 w1 hub2 w2 hub3 w3 hub4 w4,
      GetHubPath P parent w = some (hub1, w1) ∧
      GetHubPath P parent (GetDeviceDescriptor P hub1 (toULONG port) w1).2 = some (hub2, w2) ∧
      GetHubPath P parent (GetStringDescriptor P hub2 (toULONG port)
        (GetDeviceDescriptor P hub1 (toULONG port) w1).1.iManufacturer w2).2 = some (hub3, w3) ∧
      GetHubPath P parent (GetStringDescriptor P hub3 (toULONG port)
        (GetDeviceDescriptor P hub1 (toULONG port) w1).1.iSerialNumber w3).2 = some (hub4, w4) ∧
      GetDevices.fetch P device_path parent location w =
        .ok { device_path := device_path
              usb_device_descriptor := (GetDeviceDescriptor P hub1 (toULONG port) w1).1
              manufacture := (GetStringDescriptor P hub2 (toULONG port)
                (GetDeviceDescriptor P hub1 (toULONG port) w1).1.iManufacturer w2).1
              serial := (GetStringDescriptor P hub3 (toULONG port)
                (GetDeviceDescriptor P hub1 (toULONG port) w1).1.iSerialNumber w3).1
              product := (GetStringDescriptor P hub4 (toULONG port)
                (GetDeviceDescriptor P hub1 (toULONG port) w1).1.iProduct w4).1 }
            (GetStringDescriptor P hub4 (toULONG port)
                (GetDeviceDescriptor P hub1 (toULONG port) w1).1.iProduct w4).2 := by
  obtain ⟨hub1, w1, e1, -⟩ := GetHubPath_total P parent w
  obtain ⟨hub2, w2, e2, -⟩ := GetHubPath_total P parent
    (GetDeviceDescriptor P hub1 (toULONG port) w1).2
  obtain ⟨hub3, w3, e3, -⟩ := GetHubPath_total P parent
    (GetStringDescriptor P hub2 (toULONG port)
      (GetDeviceDescriptor P hub1 (toULONG port) w1).1.iManufacturer w2).2
  obtain ⟨hub4, w4, e4, -⟩ := GetHubPath_total P parent
    (GetStringDescriptor P hub3 (toULONG port)
      (GetDeviceDescriptor P hub1 (toULONG port) w1).1.iSerialNumber w3).2
  refine ⟨hub1, w1, hub2, w2, hub3, w3, hub4, w4, e1, e2, e3, e4, ?_⟩
  simp only [GetDevices.fetch, hp, e1, e2, e3, e4]

/-- The statements of lines 275-280 either raise the exception of the location
parser or build a record; they never exhaust a loop bound. -/
theorem GetDevices.fetch_cases (P : Platform) (device_path : NString) (parent : Nat)
    (location : WString) (w : World) :
    (∃ x, GetPortFromLocation P.sizeBits (c_str location) = .error x ∧
      GetDevices.fetch P device_path parent location w = .raised x w) ∨
    (∃ port d w1, GetPortFromLocation P.sizeBits (c_str location) = .ok port ∧
      GetDevices.fetch P device_path parent location w = .ok d w1 ∧
      d.device_path = device_path) := by
  cases hp : GetPortFromLocation P.sizeBits (c_str location) with
  | error x =>
    left
    refine ⟨x, rfl, ?_⟩
    simp only [GetDevices.fetch, hp]
  | ok port =>
    right
    obtain ⟨hub1, w1, hub2, w2, hub3, w3, hub4, w4, -, -, -, -, hf⟩ :=
      GetDevices.fetch_ok P device_path parent location w port hp
    exact ⟨port, _, _, rfl, hf, rfl⟩

/-- What one pass through the loop body of `GetDevices` can do. -/
theorem GetDevices.step_cases (P : Platform) (snapshot : List Entry) (idx : Nat) (w : World) :
    (∃ w1, GetDevices.step P snapshot idx w = .ok none w1 ∧
      (snapshot.length ≤ idx → w1.lastError = ERROR_NO_MORE_ITEMS)) ∨
    (∃ d w1, GetDevices.step P snapshot idx w = .ok (some d) w1 ∧ StemsFrom snapshot d idx) ∨
    (∃ x w1, GetDevices.step P snapshot idx w = .raised x w1) := by
  unfold GetDevices.step
  cases he : snapshot.get? idx with
  | none => exact Or.inl ⟨_, rfl, fun _ => rfl⟩
  | some e =>
    have hlt : ¬ snapshot.length ≤ idx := by
      intro hle
      rw [List.get?_eq_none.2 hle] at he
      cases he
    simp only []
    cases hi : e.iface.value with
    | none => exact Or.inl ⟨_, rfl, fun h => absurd h hlt⟩
    | some u =>
      simp only []
      cases hd : e.detail.value with
      | none => exact Or.inl ⟨_, rfl, fun h => absurd h hlt⟩
      | some DevicePath =>
        simp only []
        cases hl : e.location.value with
        | none => exact Or.inl ⟨_, rfl, fun h => absurd h hlt⟩
        | some location =>
          simp only []
          cases hpar : e.parent with
          | none => exact Or.inl ⟨_, rfl, fun h => absurd h hlt⟩
          | some parent =>
            simp only []
            right
            rcases GetDevices.fetch_cases P (narrow (c_str DevicePath)) parent location
              ((((w.after e.infoErr).after e.iface.setErr).after e.sizingErr).after
                e.detail.setErr |>.after e.location.setErr) with
              ⟨x, -, hf⟩ | ⟨port, d, w1, -, hf, hdp⟩
            · right
              exact ⟨x, _, by rw [hf]⟩
            · left
              refine ⟨d, w1, by rw [hf], e, DevicePath, he, ?_, hd, ?_, ?_, hdp⟩
              · rw [hi]; rfl
              · rw [hl]; rfl
              · rw [hpar]; rfl

theorem StemsFrom.lt_length {snapshot : List Entry} {d : Device} {i : Nat}
    (h : StemsFrom snapshot d i) : i < snapshot.length := by
  obtain ⟨e, p, he, -⟩ := h
  by_contra hn
  rw [List.get?_eq_none.2 (by omega)] at he
  cases he

/-- The loop of `GetDevices` ends within `snapshot.length + 2` loop tests. -/
theorem GetDevices.loop_finishes (P : Platform) (snapshot : List Entry) :
    ∀ (fuel idx : Nat) (devices : List Device) (w : World),
      snapshot.length + 2 ≤ fuel + idx → idx ≤ snapshot.length →
      GetDevices.loop P snapshot fuel idx devices w ≠ .unfinished := by
  intro fuel
  induction fuel with
  | zero => intro idx devices w h1 h2; omega
  | succ n ih =>
    intro idx devices w h1 h2
    unfold GetDevices.loop
    by_cases hle : w.lastError = ERROR_NO_MORE_ITEMS
    · rw [if_pos hle]
      simp
    · rw [if_neg hle]
      rcases GetDevices.step_cases P snapshot idx w with
        ⟨w1, hs, hend⟩ | ⟨d, w1, hs, hstem⟩ | ⟨x, w1, hs⟩
      · rw [hs]
        simp only []
        by_cases hlt : idx < snapshot.length
        · exact ih (idx + 1) devices w1 (by omega) (by omega)
        · obtain ⟨m, rfl⟩ : ∃ m, n = m + 1 := ⟨n - 1, by omega⟩
          unfold GetDevices.loop
          rw [if_pos (hend (by omega))]
          simp
      · rw [hs]
        simp only []
        have := hstem.lt_length
        exact ih (idx + 1) _ w1 (by omega) (by omega)
      · rw [hs]
        simp

/-- Every record the loop of `GetDevices` adds stems from a member of the
snapshot at an index of its own, in increasing order. -/
theorem GetDevices.loop_stems (P : Platform) (snapshot : List Entry) :
    ∀ (fuel idx : Nat) (devices : List Device) (w : World) (out : List Device) (w1 : World)
      (idxs0 : List Nat),
      GetDevices.loop P snapshot fuel idx devices w = .ok out w1 →
      List.Forall₂ (StemsFrom snapshot) devices idxs0 →
      (∀ i ∈ idxs0, i < idx) → idxs0.Pairwise (· < ·) →
      ∃ idxs, List.Forall₂ (StemsFrom snapshot) out idxs ∧ idxs.Pairwise (· < ·) := by
  intro fuel
  induction fuel with
  | zero => intro idx devices w out w1 idxs0 h; simp [GetDevices.loop] at h
  | succ n ih =>
    intro idx devices w out w1 idxs0 h hrel hbound hsorted
    unfold GetDevices.loop at h
    by_cases hle : w.lastError = ERROR_NO_MORE_ITEMS
    · rw [if_pos hle] at h
      cases h
      exact ⟨idxs0, hrel, hsorted⟩
    · rw [if_neg hle] at h
      rcases GetDevices.step_cases P snapshot idx w with
        ⟨w2, hs, -⟩ | ⟨d, w2, hs, hstem⟩ | ⟨x, w2, hs⟩
      · rw [hs] at h
        exact ih (idx + 1) devices w2 out w1 idxs0 h hrel
          (fun i hi => Nat.lt_succ_of_lt (hbound i hi)) hsorted
      · rw [hs] at h
        refine ih (idx + 1) (devices ++ [d]) w2 out w1 (idxs0 ++ [idx]) h ?_ ?_ ?_
        · exact List.rel_append hrel (List.Forall₂.cons hstem List.Forall₂.nil)
        · intro i hi
          rcases List.mem_append.1 hi with hi | hi
          · exact Nat.lt_succ_of_lt (hbound i hi)
          · rw [List.mem_singleton.1 hi]
            exact Nat.lt_succ_self idx
        · rw [List.pairwise_append]
          refine ⟨hsorted, List.pairwise_singleton _ _, ?_⟩
          intro a ha b hb
          rw [List.mem_singleton.1 hb]
          exact hbound a ha
      · rw [hs] at h
        cases h

/-- The function `GetDevices` ends: with its records, or with the exception of
the location parser. -/
theorem GetDevices_finishes (P : Platform) (guid : GUID) (w : World) :
    GetDevices P guid w ≠ .unfinished := by
  simp only [GetDevices]
  cases h : (P.SetupDiGetClassDevs guid).value with
  | none => simp
  | some snapshot =>
    exact GetDevices.loop_finishes P snapshot _ 0 [] _ (by omega) (by omega)

/-! ## The location parser (C1, C2, C3) -/

/-- C1 (amended): on a text `pre # N . suf`, where `pre` holds neither `#` nor
`.` and `N` is a non-empty run of decimal digits, `GetPortFromLocation` returns
the base-10 value of `N` when that value fits a `long`, and raises
`out_of_range` when it does not. -/
theorem parse_port_roundtrip (w : Nat) (pre N suf : WString)
    (hpre : 35 ∉ pre ∧ 46 ∉ pre) (hN : N ≠ []) (hdig : ∀ c ∈ N, isdigit c = true)
    (hlen : (pre ++ 35 :: (N ++ 46 :: suf)).length < 2 ^ w) :
    GetPortFromLocation w (pre ++ 35 :: (N ++ 46 :: suf)) =
      if (decimalValue N : Int) ≤ LONG_MAX then .ok (decimalValue N)
      else .error .out_of_range := by
  have h46 : 46 ∉ N := fun h => absurd (hdig 46 h) (by decide)
  rw [GetPortFromLocation_eq w _ hlen, portText_shape pre N suf hpre.1 hpre.2 h46, stol_c_str,
    stol_digits N hN hdig]

/-- On `Port_#0004.Hub_#0002` the port is 4. -/
theorem parse_port_roundtrip_witness :
    GetPortFromLocation 64 (wstr "Port_#0004.Hub_#0002") = .ok 4 :=
  (parse_port_roundtrip 64 (wstr "Port_") (wstr "0004") (wstr "Hub_#0002")
    (by decide) (by decide) (by decide) (by decide)).trans (by decide)

/-- C1 (as stated) fails: a digit run whose value does not fit a `long` is not
returned. -/
theorem parse_port_roundtrip_counterexample :
    GetPortFromLocation 64 (wstr "Port_#2147483648.Hub_#0002") = .error .out_of_range ∧
    GetPortFromLocation 32 (wstr "Port_#2147483648.Hub_#0002") = .error .out_of_range ∧
    GetPortFromLocation 64 (wstr "Port_#99999999999999999999.Hub_#0002")
      = .error .out_of_range := by
  decide

/-- C2 (amended): `GetPortFromLocation` never fails for a missing or misplaced
delimiter. It returns what `stol` makes of `portText`: the text between the
first `#` and the first `.` when the `#` comes first, the whole text after the
first `#` when no `.` follows it or the first `.` precedes it, and the text
before the first `.` (all of it without a `.`) when there is no `#`. -/
theorem parse_port_delimiters (w : Nat) (s : WString) (hlen : s.length < 2 ^ w) :
    GetPortFromLocation w s = stol (portText s) := by
  rw [GetPortFromLocation_eq w s hlen, stol_c_str]

/-- The dotted path without a `#` is read up to its first `.`, as `0000`. -/
theorem parse_port_delimiters_witness :
    GetPortFromLocation 64 (wstr "0000.0014.0120.016.001.004.001.000.000") = .ok 0 :=
  (parse_port_delimiters 64 (wstr "0000.0014.0120.016.001.004.001.000.000")
    (by decide)).trans (by decide)

/-- C2 (as stated) fails: texts that lack the `#`, lack the `.`, or have the
first `.` before the first `#` yield a number. -/
theorem parse_port_delimiters_counterexample :
    (GetPortFromLocation 64 (wstr "0000.0014.0120.016.001.004.001.000.000") = .ok 0 ∧
      35 ∉ wstr "0000.0014.0120.016.001.004.001.000.000") ∧
    (GetPortFromLocation 32 (wstr "0000.0014.0120.016.001.004.001.000.000") = .ok 0) ∧
    (GetPortFromLocation 64 (wstr "Port_#0004") = .ok 4 ∧ 46 ∉ wstr "Port_#0004") ∧
    (GetPortFromLocation 64 (wstr "Hub.Port_#0004") = .ok 4 ∧
      (wstr "Hub.Port_#0004").indexOf 46 < (wstr "Hub.Port_#0004").indexOf 35) := by
  decide

/-- C3 (amended): on a text `pre # mid . suf`, where the `#` and the `.` shown
are the first ones, `GetPortFromLocation` raises `invalid_argument` exactly when
`mid` does not begin, after optional white space and at most one sign, with a
decimal digit; what follows the leading digits is ignored. -/
theorem parse_port_literal (w : Nat) (pre mid suf : WString)
    (hpre : 35 ∉ pre ∧ 46 ∉ pre) (hmid : 46 ∉ mid)
    (hlen : (pre ++ 35 :: (mid ++ 46 :: suf)).length < 2 ^ w) :
    GetPortFromLocation w (pre ++ 35 :: (mid ++ 46 :: suf)) = .error .invalid_argument ↔
      ¬ StartsWithInteger mid := by
  rw [GetPortFromLocation_eq w _ hlen, portText_shape pre mid suf hpre.1 hpre.2 hmid, stol_c_str,
    stol_invalid_iff]

/-- C3 (as stated) fails: digits followed by other characters, leading white
space and a sign are all accepted between the delimiters. -/
theorem parse_port_literal_counterexample :
    GetPortFromLocation 64 (wstr "Port_#12ab.Hub") = .ok 12 ∧
    GetPortFromLocation 64 (wstr "Port_# 12.Hub") = .ok 12 ∧
    GetPortFromLocation 64 (wstr "Port_#-12.Hub") = .ok (-12) := by
  decide

/-- The text `ab12` between the delimiters does not begin with an integer. -/
theorem parse_port_literal_witness : ¬ StartsWithInteger (wstr "ab12") :=
  (parse_port_literal 64 (wstr "Port_") (wstr "ab12") (wstr "Hub_#0002")
    (by decide) (by decide) (by decide)).1 (by decide)

/-! ## The descriptor fetcher (C4, C5, C6) -/

/-- C4 (amended): with string index 0 `GetStringDescriptor` sends the request
with `wValue = 0x0300` like for any other index. It returns the empty string
when the hub cannot be opened and when the request fails; when the request
succeeds it returns the string field of the answer, narrowed and cut at its
first NUL, which is empty only when that field is. -/
theorem get_string_descriptor_index_zero (P : Platform) (hub_path : WString) (port : Nat)
    (w : World) :
    ((P.CreateFile (c_str hub_path)).value = none →
      (GetStringDescriptor P hub_path port 0 w).1 = []) ∧
    (∀ hub_handle, (P.CreateFile (c_str hub_path)).value = some hub_handle →
      (P.DescriptorFromNodeConnection hub_handle ⟨port, 768, 1033, 255⟩).value = none →
      (GetStringDescriptor P hub_path port 0 w).1 = []) ∧
    (∀ hub_handle bString, (P.CreateFile (c_str hub_path)).value = some hub_handle →
      (P.DescriptorFromNodeConnection hub_handle ⟨port, 768, 1033, 255⟩).value = some bString →
      (GetStringDescriptor P hub_path port 0 w).1 = narrow (c_str bString)) := by
  have e : ((USB_STRING_DESCRIPTOR_TYPE <<< 8) ||| 0) % 65536 = 768 := by decide
  have l : MAXIMUM_USB_STRING_LENGTH % 65536 = 255 := by decide
  unfold GetStringDescriptor createFile
  refine ⟨?_, ?_, ?_⟩
  · intro h
    simp only [h]
  · intro hh h1 h2
    simp only [h1, e, l, h2]
  · intro hh b h1 h2
    simp only [h1, e, l, h2]

/-- On the example platform: the path `nohub` cannot be opened; port 9 of the
hub answers no request; port 4 answers the request for index 0 with the
language identifier 0x0409. -/
theorem get_string_descriptor_index_zero_witness :
    (GetStringDescriptor (examplePlatform (some 0) []) (wstr "nohub") 4 0 (freshWorld 0)).1 = [] ∧
    (GetStringDescriptor (examplePlatform (some 0) []) (wstr "hub") 9 0 (freshWorld 0)).1 = [] ∧
    (GetStringDescriptor (examplePlatform (some 0) []) (wstr "hub") 4 0 (freshWorld 0)).1
      = narrow (c_str [1033]) :=
  ⟨(get_string_descriptor_index_zero (examplePlatform (some 0) []) (wstr "nohub") 4
      (freshWorld 0)).1 (by decide),
   (get_string_descriptor_index_zero (examplePlatform (some 0) []) (wstr "hub") 9
      (freshWorld 0)).2.1 7 (by decide) (by decide),
   (get_string_descriptor_index_zero (examplePlatform (some 0) []) (wstr "hub") 4
      (freshWorld 0)).2.2 7 [1033] (by decide) (by decide)⟩

/-- C4 (as stated) fails: a device answers the string request for index 0 with
its table of language identifiers, and `GetStringDescriptor` returns that
text. -/
theorem get_string_descriptor_index_zero_counterexample :
    (GetStringDescriptor (examplePlatform (some 0) []) (wstr "hub") 4 0 (freshWorld 0)).1
      = [9] := by
  decide

/-- C5: when the hub cannot be opened, or it opens and the
node-connection-information request fails, `GetDeviceDescriptor` returns the
all-zero descriptor. -/
theorem get_device_descriptor_soft_failure (P : Platform) (hub_path : WString) (port : Nat)
    (w : World)
    (h : (P.CreateFile (c_str hub_path)).value = none ∨
      ∃ hub_handle, (P.CreateFile (c_str hub_path)).value = some hub_handle ∧
        (P.NodeConnectionInformationEx hub_handle port).value = none) :
    (GetDeviceDescriptor P hub_path port w).1 = ⟨0, 0, 0, 0, 0, 0, 0, 0, 0, 0, 0, 0, 0, 0⟩ := by
  unfold GetDeviceDescriptor createFile
  rcases h with h | ⟨hh, h1, h2⟩
  · simp [h, USB_DEVICE_DESCRIPTOR.zero]
  · simp [h1, h2, USB_DEVICE_DESCRIPTOR.zero]

/-- Both failures on the example platform: an unknown path, and port 9 of the
hub, which answers no request. -/
theorem get_device_descriptor_soft_failure_witness :
    (GetDeviceDescriptor (examplePlatform (some 0) []) (wstr "nohub") 4 (freshWorld 0)).1
      = ⟨0, 0, 0, 0, 0, 0, 0, 0, 0, 0, 0, 0, 0, 0⟩ ∧
    (GetDeviceDescriptor (examplePlatform (some 0) []) (wstr "hub") 9 (freshWorld 0)).1
      = ⟨0, 0, 0, 0, 0, 0, 0, 0, 0, 0, 0, 0, 0, 0⟩ :=
  ⟨get_device_descriptor_soft_failure _ (wstr "nohub") 4 (freshWorld 0) (Or.inl (by decide)),
   get_device_descriptor_soft_failure _ (wstr "hub") 9 (freshWorld 0)
     (Or.inr ⟨7, by decide, by decide⟩)⟩

/-- C6 (the code at the failing input): `GetDeviceDescriptor` always leaves the
open handles as it found them, and so does `GetStringDescriptor` when the hub
does not open or the request fails; when the request succeeds,
`GetStringDescriptor` returns with the handle it opened still open. -/
theorem get_string_descriptor_leaves_handle_open :
    (∀ (P : Platform) (hub_path : WString) (port : Nat) (w : World),
      (GetDeviceDescriptor P hub_path port w).2.openHandles = w.openHandles) ∧
    (GetStringDescriptor (examplePlatform (some 0) []) (wstr "nohub") 4 2
      (freshWorld 0)).2.openHandles = [] ∧
    (GetStringDescriptor (examplePlatform (some 0) []) (wstr "hub") 4 3
      (freshWorld 0)).2.openHandles = [] ∧
    (GetStringDescriptor (examplePlatform (some 0) []) (wstr "hub") 4 2 (freshWorld 0))
      = (wstr "Widget", ⟨0, [7], [wstr "hub"],
          [.descriptorFromNodeConnection 7 ⟨4, 770, 1033, 255⟩]⟩) := by
  refine ⟨?_, by decide, by decide, by decide⟩
  intro P hub_path port w
  unfold GetDeviceDescriptor createFile closeHandle World.after
  cases h : (P.CreateFile (c_str hub_path)).value <;> simp [h]

/-! ## The enumerator (C7, C8, C9, C10) -/

/-- C9: the loop body of `GetDevices` pushes no record for a member whose
location property is absent or whose parent node is not resolved; and every
record `GetDevices` returns stems from a member of the snapshot whose interface
path, location property and parent node were all obtained, each record from a
member of its own, in snapshot order. `GetDevices` always ends, with its records
or with the exception of the location parser. -/
theorem enumerate_records_stem_from_complete_entries (P : Platform) (guid : GUID) (w : World) :
    GetDevices P guid w ≠ .unfinished ∧
    (∀ (snapshot : List Entry) (idx : Nat) (w0 : World) (e : Entry),
      snapshot.get? idx = some e → e.location.value = none ∨ e.parent = none →
      ∃ w1, GetDevices.step P snapshot idx w0 = .ok none w1) ∧
    (∀ (devices : List Device) (w1 : World), GetDevices P guid w = .ok devices w1 →
      ∃ idxs : List Nat, idxs.Pairwise (· < ·) ∧
        List.Forall₂ (StemsFrom ((P.SetupDiGetClassDevs guid).value.getD [])) devices idxs) := by
  refine ⟨GetDevices_finishes P guid w, ?_, ?_⟩
  · intro snapshot idx w0 e he hdrop
    rcases GetDevices.step_cases P snapshot idx w0 with
      ⟨w1, hs, -⟩ | ⟨d, w1, -, e2, p, he2, -, -, hl, hp, -⟩ | ⟨x, w1, hs⟩
    · exact ⟨w1, hs⟩
    · rw [he] at he2
      cases he2
      rcases hdrop with h | h
      · rw [h] at hl
        cases hl
      · rw [h] at hp
        cases hp
    · exfalso
      unfold GetDevices.step at hs
      rw [he] at hs
      simp only [] at hs
      rcases hdrop with h | h
      · rw [h] at hs
        split at hs
        · cases hs
        · split at hs <;> cases hs
      · rw [h] at hs
        split at hs
        · cases hs
        · split at hs
          · cases hs
          · split at hs <;> cases hs
  · intro devices w1 h
    simp only [GetDevices] at h
    cases hv : (P.SetupDiGetClassDevs guid).value with
    | none =>
      rw [hv] at h
      simp only [Outcome.ok.injEq] at h
      rw [← h.1]
      exact ⟨[], List.Pairwise.nil, List.Forall₂.nil⟩
    | some snapshot =>
      rw [hv] at h
      obtain ⟨idxs, h1, h2⟩ := GetDevices.loop_stems P snapshot _ 0 [] _ devices w1 [] h
        List.Forall₂.nil (by simp) List.Pairwise.nil
      exact ⟨idxs, h2, h1⟩

/-- Three members, the middle one without a location property: the loop body
pushes nothing for the middle one, and `GetDevices` returns two records. -/
theorem enumerate_records_stem_from_complete_entries_witness :
    (∃ w1, GetDevices.step (examplePlatform (some 0) [])
      [exampleDevice "a" "Port_#0004.Hub_#0002" 1,
        { exampleDevice "b" "Port_#0004.Hub_#0002" 1 with location := ⟨none, some 13⟩ },
        exampleDevice "c" "Port_#0004.Hub_#0002" 1] 1 (freshWorld 0) = .ok none w1) ∧
    ∃ idxs : List Nat, idxs.Pairwise (· < ·) ∧
      List.Forall₂
        (StemsFrom [exampleDevice "a" "Port_#0004.Hub_#0002" 1,
          { exampleDevice "b" "Port_#0004.Hub_#0002" 1 with location := ⟨none, some 13⟩ },
          exampleDevice "c" "Port_#0004.Hub_#0002" 1])
        [exampleRecord "a", exampleRecord "c"] idxs :=
  ⟨(enumerate_records_stem_from_complete_entries (examplePlatform (some 0) [])
      GUID_DEVINTERFACE_USB_DEVICE (freshWorld 0)).2.1 _ 1 (freshWorld 0)
      { exampleDevice "b" "Port_#0004.Hub_#0002" 1 with location := ⟨none, some 13⟩ }
      rfl (Or.inl rfl),
   (enumerate_records_stem_from_complete_entries
      (examplePlatform (some 0) [exampleDevice "a" "Port_#0004.Hub_#0002" 1,
        { exampleDevice "b" "Port_#0004.Hub_#0002" 1 with location := ⟨none, some 13⟩ },
        exampleDevice "c" "Port_#0004.Hub_#0002" 1])
      GUID_DEVINTERFACE_USB_DEVICE (freshWorld 0)).2.2 [exampleRecord "a", exampleRecord "c"]
      ⟨259, [7, 7, 7, 7], List.replicate 8 (wstr "hub"), exampleRequests ++ exampleRequests⟩
      (by decide)⟩

/-- C7 (amended): when the loop of `GetDevices` comes to a member whose interface
path, location text and parent node were obtained and whose location text makes
`GetPortFromLocation` raise, no control channel is opened and no control request
is sent for that member, and the exception leaves `GetDevices`: the pass ends
there without returning any record. -/
theorem enumerate_malformed_location_raises (P : Platform) (snapshot : List Entry)
    (fuel idx : Nat) (devices : List Device) (w : World) (e : Entry)
    (DevicePath location : WString) (parent : Nat) (x : Exn)
    (hrun : w.lastError ≠ ERROR_NO_MORE_ITEMS)
    (he : snapshot.get? idx = some e) (hi : e.iface.value = some ())
    (hd : e.detail.value = some DevicePath) (hl : e.location.value = some location)
    (hp : e.parent = some parent)
    (hx : GetPortFromLocation P.sizeBits (c_str location) = .error x) :
    ∃ w1, GetDevices.loop P snapshot (fuel + 1) idx devices w = .raised x w1 ∧
      w1.sameChannels w := by
  have hf : ∀ w0, GetDevices.fetch P (narrow (c_str DevicePath)) parent location w0
      = .raised x w0 := by
    intro w0
    simp only [GetDevices.fetch, hx]
  refine ⟨((((w.after e.infoErr).after e.iface.setErr).after e.sizingErr).after
    e.detail.setErr).after e.location.setErr, ?_, ⟨rfl, rfl, rfl⟩⟩
  unfold GetDevices.loop
  rw [if_neg hrun]
  simp only [GetDevices.step, he, hi, hd, hl, hp, hf]

/-- The second of three members has the location text `Port_#.Hub_#0002`. -/
theorem enumerate_malformed_location_raises_witness :
    ∃ w1, GetDevices.loop (examplePlatform (some 0) [])
      [exampleDevice "a" "Port_#0004.Hub_#0002" 1, exampleDevice "b" "Port_#.Hub_#0002" 1,
        exampleDevice "c" "Port_#0004.Hub_#0002" 1] (3 + 1) 1 [exampleRecord "a"] (freshWorld 0)
        = .raised .invalid_argument w1 ∧ w1.sameChannels (freshWorld 0) :=
  enumerate_malformed_location_raises (examplePlatform (some 0) []) _ 3 1 [exampleRecord "a"]
    (freshWorld 0) (exampleDevice "b" "Port_#.Hub_#0002" 1) (wstr "b")
    (wstr "Port_#.Hub_#0002") 1 .invalid_argument (by decide) rfl rfl rfl rfl rfl (by decide)

/-- C7 (as stated) fails: with a malformed location text on the second of three
members, `GetDevices` does not complete and returns no record, neither the one
of the first member, already built, nor the one of the third. -/
theorem enumerate_malformed_location_raises_counterexample :
    GetDevices (examplePlatform (some 0)
      [exampleDevice "a" "Port_#0004.Hub_#0002" 1, exampleDevice "b" "Port_#.Hub_#0002" 1,
        exampleDevice "c" "Port_#0004.Hub_#0002" 1]) GUID_DEVINTERFACE_USB_DEVICE (freshWorld 0)
      = .raised .invalid_argument
          ⟨122, [7, 7], List.replicate 4 (wstr "hub"), exampleRequests⟩ := by
  decide

/-- C8 (amended): when the loop of `GetDevices` comes to a member whose interface
path, location text and parent node were obtained, whose location text parses,
and whose parent node is the node of no hub, the member is not skipped:
`CreateFile` is called four times on the empty path, and a record carrying the
interface path of the member is appended to `devices`. -/
theorem enumerate_unreachable_hub_still_fetches (P : Platform) (snapshot : List Entry)
    (fuel idx : Nat) (devices : List Device) (w : World) (e : Entry)
    (DevicePath location : WString) (parent : Nat) (port : Int)
    (hrun : w.lastError ≠ ERROR_NO_MORE_ITEMS)
    (he : snapshot.get? idx = some e) (hi : e.iface.value = some ())
    (hd : e.detail.value = some DevicePath) (hl : e.location.value = some location)
    (hp : e.parent = some parent)
    (hport : GetPortFromLocation P.sizeBits (c_str location) = .ok port)
    (hhub : ∀ hubs, (P.SetupDiGetClassDevs GUID_DEVINTERFACE_USB_HUB).value = some hubs →
      ∀ h ∈ hubs, h.DevInst ≠ parent) :
    ∃ d w1, d.device_path = narrow (c_str DevicePath) ∧
      w1.opened = w.opened ++ [[], [], [], []] ∧
      GetDevices.loop P snapshot (fuel + 1) idx devices w
        = GetDevices.loop P snapshot fuel (idx + 1) (devices ++ [d]) w1 := by
  obtain ⟨hub1, w1, hub2, w2, hub3, w3, hub4, w4, e1, e2, e3, e4, hf⟩ :=
    GetDevices.fetch_ok P (narrow (c_str DevicePath)) parent location
      (((((w.after e.infoErr).after e.iface.setErr).after e.sizingErr).after
        e.detail.setErr).after e.location.setErr) port hport
  obtain ⟨v1, n1, c1⟩ := GetHubPath_no_match P parent _ hhub
  rw [n1] at e1
  obtain ⟨v2, n2, c2⟩ := GetHubPath_no_match P parent _ hhub
  rw [n2] at e2
  obtain ⟨v3, n3, c3⟩ := GetHubPath_no_match P parent _ hhub
  rw [n3] at e3
  obtain ⟨v4, n4, c4⟩ := GetHubPath_no_match P parent _ hhub
  rw [n4] at e4
  simp only [Option.some.injEq, Prod.mk.injEq] at e1 e2 e3 e4
  obtain ⟨rfl, rfl⟩ := e1
  obtain ⟨rfl, rfl⟩ := e2
  obtain ⟨rfl, rfl⟩ := e3
  obtain ⟨rfl, rfl⟩ := e4
  have key : ∃ d w1, GetDevices.fetch P (narrow (c_str DevicePath)) parent location
      (((((w.after e.infoErr).after e.iface.setErr).after e.sizingErr).after
        e.detail.setErr).after e.location.setErr) = .ok d w1 ∧
      d.device_path = narrow (c_str DevicePath) ∧
      w1.opened = w.opened ++ [[], [], [], []] := by
    refine ⟨_, _, hf, rfl, ?_⟩
    rw [GetStringDescriptor_opened, c4.2.1, GetStringDescriptor_opened, c3.2.1,
      GetStringDescriptor_opened, c2.2.1, GetDeviceDescriptor_opened, c1.2.1]
    simp [c_str, World.after]
  obtain ⟨d, w1, hfd, h1, h2⟩ := key
  refine ⟨d, w1, h1, h2, ?_⟩
  conv_lhs => unfold GetDevices.loop
  rw [if_neg hrun]
  simp only [GetDevices.step, he, hi, hd, hl, hp, hfd]

/-- The parent of the device is node 2, and the only hub is on node 1. -/
theorem enumerate_unreachable_hub_still_fetches_witness :
    ∃ d w1, d.device_path = narrow (c_str (wstr "d")) ∧
      w1.opened = (freshWorld 0).opened ++ [[], [], [], []] ∧
      GetDevices.loop (examplePlatform (some 0) []) [exampleDevice "d" "Port_#0004.Hub_#0002" 2]
          (2 + 1) 0 [] (freshWorld 0)
        = GetDevices.loop (examplePlatform (some 0) [])
            [exampleDevice "d" "Port_#0004.Hub_#0002" 2] 2 (0 + 1) ([] ++ [d]) w1 :=
  enumerate_unreachable_hub_still_fetches (examplePlatform (some 0) []) _ 2 0 []
    (freshWorld 0) (exampleDevice "d" "Port_#0004.Hub_#0002" 2) (wstr "d")
    (wstr "Port_#0004.Hub_#0002") 2 4 (by decide) rfl rfl rfl rfl rfl (by decide)
    (by
      intro hubs hh h hmem
      have : hubs = [exampleHub] := by
        have h2 : ((examplePlatform (some 0) []).SetupDiGetClassDevs
          GUID_DEVINTERFACE_USB_HUB).value = some [exampleHub] := rfl
        rw [h2] at hh
        exact (Option.some.inj hh).symm
      subst this
      rw [List.mem_singleton.1 hmem]
      decide)

/-- C8 (as stated) fails: for a device whose parent node is the node of no hub,
`GetDevices` calls `CreateFile` on the empty path four times and returns a
record, with an all-zero descriptor and empty strings. -/
theorem enumerate_unreachable_hub_still_fetches_counterexample :
    GetDevices (examplePlatform (some 0) [exampleDevice "d" "Port_#0004.Hub_#0002" 2])
        GUID_DEVINTERFACE_USB_DEVICE (freshWorld 0)
      = .ok [⟨wstr "d", USB_DEVICE_DESCRIPTOR.zero, [], [], []⟩]
          ⟨259, [], [[], [], [], []], []⟩ := by
  decide

/-- C10 (the code at the failing inputs): `GetDevices` always ends, but not
always after every member was visited. Two complete members on port 4 of the
example hub give two records when `CreateFile` resets the last-error value and
`GetDevices` starts with the last-error value 0; they give one record when a
successful `CreateFile` leaves the last-error value alone, because the scan of
`GetHubPath` left it at `ERROR_NO_MORE_ITEMS`; and they give no record when
`GetDevices` starts with the last-error value `ERROR_NO_MORE_ITEMS`. -/
theorem enumerate_stops_early_on_stale_last_error :
    (∀ (P : Platform) (guid : GUID) (w : World), GetDevices P guid w ≠ .unfinished) ∧
    (GetDevices (examplePlatform (some 0) [exampleDevice "a" "Port_#0004.Hub_#0002" 1,
        exampleDevice "c" "Port_#0004.Hub_#0002" 1])
      GUID_DEVINTERFACE_USB_DEVICE (freshWorld 0)).value?
        = some [exampleRecord "a", exampleRecord "c"] ∧
    (GetDevices (examplePlatform none [exampleDevice "a" "Port_#0004.Hub_#0002" 1,
        exampleDevice "c" "Port_#0004.Hub_#0002" 1])
      GUID_DEVINTERFACE_USB_DEVICE (freshWorld 0))
        = .ok [⟨wstr "a", exampleDescriptor, [], [], wstr "Widget"⟩]
            ⟨259, [7], [wstr "hub", [], wstr "hub", wstr "hub"],
              [.nodeConnectionInformationEx 7 4,
               .descriptorFromNodeConnection 7 ⟨4, 771, 1033, 255⟩,
               .descriptorFromNodeConnection 7 ⟨4, 770, 1033, 255⟩]⟩ ∧
    (GetDevices (examplePlatform (some 0) [exampleDevice "a" "Port_#0004.Hub_#0002" 1,
        exampleDevice "c" "Port_#0004.Hub_#0002" 1])
      GUID_DEVINTERFACE_USB_DEVICE (freshWorld 259)) = .ok [] (freshWorld 259) := by
  refine ⟨GetDevices_finishes, by decide, by decide, by decide⟩

end DescriptorReader
